import Mathlib

/-!
Shallow embedding of the HomeDesk-API authentication routes
(`src/routes/auth.rs`, together with the data model in `src/models.rs`).

The database is modelled as an explicit record of tables (lists of rows);
each HTTP handler becomes a pure function from a request and a database
state to a status/result and a successor state.  The SQL transaction of
the `signup` handler is modelled by having the function return the original
state unchanged on every error path and publish the fully-updated state
only at the commit point, exactly mirroring the rollback-on-drop
semantics of sqlx transactions.  Spontaneous storage failures (connection loss etc.) are
modelled by an explicit failure oracle passed to each handler.

The fabricated-salt pipeline of `get_salt` is embedded faithfully:
the `DefaultHasher` of Rust is SipHash-1-3 with zero keys over the UTF-8
bytes of the string (plus the `0xff` terminator byte that the `Hash`
impl for `str` appends), `StdRng::seed_from_u64` expands the 64-bit seed
to a 32-byte ChaCha key via the PCG32-based expander of rand_core, and
`StdRng` (ChaCha12) then yields 16 bytes, each the low byte of one
32-bit output word of the first ChaCha block.
-/

/-! ## Machine-word helpers (`u64` / `u32` arithmetic as `Nat` mod `2^w`) -/

def M64 : Nat := 2 ^ 64

def M32 : Nat := 2 ^ 32

/-- wrapping 64-bit addition. -/
def add64 (a b : Nat) : Nat := (a + b) % M64

/-- wrapping 32-bit addition. -/
def add32 (a b : Nat) : Nat := (a + b) % M32

/-- 64-bit left rotation (inputs assumed `< 2^64`). -/
def rotl64 (x n : Nat) : Nat := ((x <<< n) ||| (x >>> (64 - n))) % M64

/-- 32-bit left rotation (inputs assumed `< 2^32`). -/
def rotl32 (x n : Nat) : Nat := ((x <<< n) ||| (x >>> (32 - n))) % M32

/-- 32-bit right rotation (inputs assumed `< 2^32`, `n ≤ 31`). -/
def rotr32 (x n : Nat) : Nat := ((x >>> n) ||| (x <<< (32 - n))) % M32

/-- little-endian value of a byte list (first byte least significant). -/
def leWord : List Nat → Nat
  | [] => 0
  | b :: rest => b % 256 + 256 * leWord rest

/-! ## UTF-8 encoding of strings (what Rust hashes / transports) -/

/-- UTF-8 encoding of a single Unicode code point. -/
def utf8EncodeChar (c : Nat) : List Nat :=
  if c < 0x80 then [c]
  else if c < 0x800 then [0xC0 + c / 64, 0x80 + c % 64]
  else if c < 0x10000 then [0xE0 + c / 4096, 0x80 + (c / 64) % 64, 0x80 + c % 64]
  else [0xF0 + c / 262144, 0x80 + (c / 4096) % 64, 0x80 + (c / 64) % 64, 0x80 + c % 64]

/-- UTF-8 bytes of a string, as `str::as_bytes` produces them in Rust. -/
def strBytes (s : String) : List Nat :=
  s.data.foldr (fun c acc => utf8EncodeChar c.toNat ++ acc) []

/-! ## Base64 (the `STANDARD` engine of the `base64` crate: standard alphabet,
canonical `=` padding required, trailing bits rejected) -/

def base64Alphabet : List Char :=
  "ABCDEFGHIJKLMNOPQRSTUVWXYZabcdefghijklmnopqrstuvwxyz0123456789+/".data

/-- character for a 6-bit value. -/
def b64Char (n : Nat) : Char := base64Alphabet.getD n 'A'

/-- 6-bit value of an alphabet character, `none` for a non-alphabet character. -/
def b64Val (c : Char) : Option Nat := base64Alphabet.findIdx? (· == c)

/-- Base64 encoding of a byte list, with `=` padding (STANDARD engine). -/
def base64Encode : List Nat → String
  | [] => ""
  | [a] => String.mk [b64Char (a % 256 / 4), b64Char (a % 4 * 16), '=', '=']
  | [a, b] =>
      String.mk [b64Char (a % 256 / 4), b64Char (a % 4 * 16 + b % 256 / 16),
        b64Char (b % 16 * 4), '=']
  | a :: b :: c :: rest =>
      String.mk [b64Char (a % 256 / 4), b64Char (a % 4 * 16 + b % 256 / 16),
        b64Char (b % 16 * 4 + c % 256 / 64), b64Char (c % 64)] ++ base64Encode rest

/-- Base64 decoding of a character list; `none` on any malformed input
(non-alphabet character, length not a multiple of 4, misplaced padding,
or non-canonical trailing bits), as the STANDARD engine rejects them. -/
def base64DecodeChars : List Char → Option (List Nat)
  | [] => some []
  | c1 :: c2 :: c3 :: c4 :: rest =>
      match b64Val c1, b64Val c2 with
      | some a, some b =>
        if c3 = '=' then
          if c4 = '=' ∧ rest = [] ∧ b % 16 = 0 then some [a * 4 + b / 16] else none
        else
          match b64Val c3 with
          | some c =>
            if c4 = '=' then
              if rest = [] ∧ c % 4 = 0 then
                some [a * 4 + b / 16, b % 16 * 16 + c / 4]
              else none
            else
              match b64Val c4 with
              | some d =>
                  (base64DecodeChars rest).map
                    (fun tail =>
                      (a * 4 + b / 16) :: (b % 16 * 16 + c / 4) :: (c % 4 * 64 + d) :: tail)
              | none => none
          | none => none
      | _, _ => none
  | _ => none

/-- Embedding of `deserialize_base64` (src/routes/auth.rs): decode a Base64
string to raw bytes, failing on malformed input. -/
def deserialize_base64 (s : String) : Option (List Nat) :=
  base64DecodeChars s.data

/-! ## SipHash-1-3 — the algorithm behind `std::collections::hash_map::DefaultHasher` -/

structure SipState where
  v0 : Nat
  v1 : Nat
  v2 : Nat
  v3 : Nat

/-- one SipHash round. -/
def sipRound (s : SipState) : SipState :=
  let v0 := add64 s.v0 s.v1
  let v1 := rotl64 s.v1 13
  let v1 := Nat.xor v1 v0
  let v0 := rotl64 v0 32
  let v2 := add64 s.v2 s.v3
  let v3 := rotl64 s.v3 16
  let v3 := Nat.xor v3 v2
  let v0 := add64 v0 v3
  let v3 := rotl64 v3 21
  let v3 := Nat.xor v3 v0
  let v2 := add64 v2 v1
  let v1 := rotl64 v1 17
  let v1 := Nat.xor v1 v2
  let v2 := rotl64 v2 32
  ⟨v0, v1, v2, v3⟩

/-- compression phase: absorb each full 8-byte little-endian word with one
SipHash round (the "1" of SipHash-1-3), returning the state and the
remaining tail of fewer than 8 bytes. -/
def sipProcess (s : SipState) : List Nat → SipState × List Nat
  | b0 :: b1 :: b2 :: b3 :: b4 :: b5 :: b6 :: b7 :: rest =>
      let m := leWord [b0, b1, b2, b3, b4, b5, b6, b7]
      let s := { s with v3 := Nat.xor s.v3 m }
      let s := sipRound s
      let s := { s with v0 := Nat.xor s.v0 m }
      sipProcess s rest
  | rest => (s, rest)

/-- SipHash-1-3 with keys `k0 = k1 = 0`, i.e. `DefaultHasher::new()` followed
by writing `msg` and calling `finish()`. -/
def sipHash13 (msg : List Nat) : Nat :=
  let s0 : SipState :=
    ⟨0x736f6d6570736575, 0x646f72616e646f6d, 0x6c7967656e657261, 0x7465646279746573⟩
  let sr := sipProcess s0 msg
  let s := sr.1
  let b := (msg.length % 256) * 2 ^ 56 + leWord sr.2
  let s := { s with v3 := Nat.xor s.v3 b }
  let s := sipRound s
  let s := { s with v0 := Nat.xor s.v0 b }
  let s := { s with v2 := Nat.xor s.v2 0xff }
  let s := sipRound (sipRound (sipRound s))
  Nat.xor (Nat.xor s.v0 s.v1) (Nat.xor s.v2 s.v3)

/-- hash value produced by `DefaultHasher` for a Rust `String`: the `Hash`
impl for `str` writes the UTF-8 bytes followed by a single `0xff` byte. -/
def defaultHasherString (s : String) : Nat :=
  sipHash13 (strBytes s ++ [0xff])

/-! ## `SeedableRng::seed_from_u64` (rand_core 0.6): PCG32 expansion of a
64-bit seed into a 32-byte ChaCha seed -/

/-- one PCG32 step: returns the output word and the advanced state. -/
def pcg32Step (state : Nat) : Nat × Nat :=
  let st := (state * 6364136223846793005 + 11634580027462260723) % M64
  let xorshifted := (Nat.xor (st >>> 18) st >>> 27) % M32
  let rot := st >>> 59
  (rotr32 xorshifted rot, st)

/-- the eight 32-bit words of the 32-byte seed produced by `seed_from_u64`
(each word is one PCG32 output, already in little-endian byte order,
which is exactly how ChaCha reads its key words back). -/
def seedWords (seed : Nat) : List Nat :=
  let p0 := pcg32Step (seed % M64)
  let p1 := pcg32Step p0.2
  let p2 := pcg32Step p1.2
  let p3 := pcg32Step p2.2
  let p4 := pcg32Step p3.2
  let p5 := pcg32Step p4.2
  let p6 := pcg32Step p5.2
  let p7 := pcg32Step p6.2
  [p0.1, p1.1, p2.1, p3.1, p4.1, p5.1, p6.1, p7.1]

/-! ## ChaCha12 block function (`rand::rngs::StdRng` = `ChaCha12Rng`) -/

/-- ChaCha quarter round on positions `a b c d` of a 16-word state. -/
def qround (s : List Nat) (a b c d : Nat) : List Nat :=
  let sa := s.getD a 0
  let sb := s.getD b 0
  let sc := s.getD c 0
  let sd := s.getD d 0
  let sa := add32 sa sb
  let sd := rotl32 (Nat.xor sd sa) 16
  let sc := add32 sc sd
  let sb := rotl32 (Nat.xor sb sc) 12
  let sa := add32 sa sb
  let sd := rotl32 (Nat.xor sd sa) 8
  let sc := add32 sc sd
  let sb := rotl32 (Nat.xor sb sc) 7
  ((((s.set a sa).set b sb).set c sc).set d sd)

/-- one ChaCha double round (column round then diagonal round). -/
def chachaDoubleRound (s : List Nat) : List Nat :=
  let s := qround s 0 4 8 12
  let s := qround s 1 5 9 13
  let s := qround s 2 6 10 14
  let s := qround s 3 7 11 15
  let s := qround s 0 5 10 15
  let s := qround s 1 6 11 12
  let s := qround s 2 7 8 13
  qround s 3 4 9 14

/-- iterate the double round. -/
def chachaRounds : Nat → List Nat → List Nat
  | 0, s => s
  | n + 1, s => chachaRounds n (chachaDoubleRound s)

/-- the first output block of ChaCha12 for the given 8-word key, with block
counter 0 and stream/nonce 0 (the state `ChaCha12Rng::from_seed` starts
from): 6 double rounds, then word-wise addition of the initial state. -/
def chacha12Block (key : List Nat) : List Nat :=
  let init := [0x61707865, 0x3320646e, 0x79622d32, 0x6b206574] ++ key ++ [0, 0, 0, 0]
  List.zipWith add32 (chachaRounds 6 init) init

/-- Embedding of the fabricated-salt pipeline in `get_salt`
(src/routes/auth.rs): hash the email with `DefaultHasher`, seed
`StdRng` from the 64-bit hash, and generate `[u8; 16]` — sixteen calls
to `next_u32`, each truncated to its low byte, consuming the first 16
words of the first ChaCha12 block. -/
def fabricatedSalt (email : String) : List Nat :=
  let seed := defaultHasherString email
  let block := chacha12Block (seedWords seed)
  (block.take 16).map (fun w => w % 256)

/-! ## Data model (src/models.rs and the persisted schema) -/

/-- `team_role` enumerated type. -/
inductive TeamRole where
  | member
  | admin
deriving DecidableEq

/-- row of `invite_codes`. -/
structure InviteCodeRow where
  id : Nat
  code : String
  is_used : Bool
deriving DecidableEq

/-- row of `users`. -/
structure UserRow where
  id : Nat
  email : String
  name : String
  password_hash : List Nat
  password_salt : List Nat
  public_key : List Nat
  encrypted_private_key : List Nat
  private_key_nonce : List Nat
deriving DecidableEq

/-- row of `teams`. -/
structure TeamRow where
  id : Nat
  name : String
  is_personal : Bool
deriving DecidableEq

/-- row of `team_members`. -/
structure TeamMemberRow where
  team_id : Nat
  user_id : Nat
  role : TeamRole
deriving DecidableEq

/-- row of `team_key_access`. -/
structure TeamKeyAccessRow where
  team_id : Nat
  user_id : Nat
  encrypted_team_key : List Nat
  nonce : List Nat
deriving DecidableEq

/-- the persisted store: the five relations the auth routes touch, plus a
counter from which the store draws fresh generated row identifiers
(standing in for the UUIDs that Postgres generates). -/
structure DBState where
  invite_codes : List InviteCodeRow
  users : List UserRow
  teams : List TeamRow
  team_members : List TeamMemberRow
  team_key_access : List TeamKeyAccessRow
  next_id : Nat
deriving DecidableEq

/-- HTTP statuses the handlers produce (plus 404, which `get_salt`
deliberately never produces). -/
inductive Status where
  | created
  | forbidden
  | internalServerError
  | unprocessableEntity
  | notFound
  | ok
deriving DecidableEq

/-- numeric code of a status. -/
def Status.code : Status → Nat
  | .created => 201
  | .forbidden => 403
  | .internalServerError => 500
  | .unprocessableEntity => 422
  | .notFound => 404
  | .ok => 200

/-! ## Request DTOs (src/routes/auth.rs) -/

/-- `RegisterRequest` after deserialization: binary fields are raw bytes. -/
structure RegisterRequest where
  invite_code : String
  email : String
  name : String
  password_hash : List Nat
  password_salt : List Nat
  public_key : List Nat
  encrypted_private_key : List Nat
  private_key_nonce : List Nat
  wrapped_personal_key : List Nat
  personal_key_nonce : List Nat
deriving DecidableEq

/-- the signup request as it arrives on the wire: binary fields are still
Base64 strings, to be decoded by `deserialize_base64` during serde
deserialization. -/
structure RawRegisterRequest where
  invite_code : String
  email : String
  name : String
  password_hash : String
  password_salt : String
  public_key : String
  encrypted_private_key : String
  private_key_nonce : String
  wrapped_personal_key : String
  personal_key_nonce : String
deriving DecidableEq

/-- serde deserialization of the signup body: every binary field goes
through `deserialize_base64`; any failure fails the whole parse (Rocket
then rejects the request before the handler runs). -/
def parseRegisterRequest (raw : RawRegisterRequest) : Option RegisterRequest := do
  let ph ← deserialize_base64 raw.password_hash
  let ps ← deserialize_base64 raw.password_salt
  let pk ← deserialize_base64 raw.public_key
  let epk ← deserialize_base64 raw.encrypted_private_key
  let pkn ← deserialize_base64 raw.private_key_nonce
  let wpk ← deserialize_base64 raw.wrapped_personal_key
  let pn ← deserialize_base64 raw.personal_key_nonce
  some ⟨raw.invite_code, raw.email, raw.name, ph, ps, pk, epk, pkn, wpk, pn⟩

/-! ## The handlers -/

/-- the points at which the `signup` transaction talks to the store; a
failure oracle says which of them fail spontaneously (connection loss
etc.), modelling sqlx errors beyond the deterministic constraint
violations that the state itself decides. -/
inductive SignupStep where
  | redeem
  | insertUser
  | insertTeam
  | insertMember
  | insertKeyAccess
  | commit
deriving DecidableEq

/-- which storage operations fail spontaneously during one request. -/
def FailureOracle : Type := SignupStep → Bool

/-- the all-good oracle: no spontaneous storage failure. -/
def noFailure : FailureOracle := fun _ => false

/-- effect of the conditional UPDATE on one row: a row matching
`code = c AND is_used = false` has `is_used` set to `true`; every other
row is untouched. -/
def flipMatching (c : String) (r : InviteCodeRow) : InviteCodeRow :=
  if r.code == c && !r.is_used then { r with is_used := true } else r

/-- the single conditional UPDATE of step 1 of `signup`:
`UPDATE invite_codes SET is_used = true WHERE code = $1 AND is_used = false RETURNING id`
run with `fetch_optional`.  It flips every matching row (the unique
constraint on `code` makes that at most one) and returns the id of the
first one, or `none` when no row matched. -/
def redeemUpdate (c : String) (rows : List InviteCodeRow) : Option Nat × List InviteCodeRow :=
  (((rows.filter (fun r => r.code == c && !r.is_used)).head?).map (fun r => r.id),
   rows.map (flipMatching c))

/-- Embedding of the `signup` handler (src/routes/auth.rs).

The whole body runs inside one sqlx transaction: every error path
returns before `tx.commit()`, so the dropped transaction rolls back and
the store is left exactly as it was — here, every error branch returns
the original `st`.  The success branch is the commit and publishes all
five writes at once.  Deterministic failure: the `users` insert
violates the unique-email constraint when a user with the same email
already exists (modelled from the spec: the migrations holding the
schema are not among the sources; the data model section declares
`email` globally unique).  Fresh generated ids are drawn from
`st.next_id`. -/
def signup (fail : FailureOracle) (req : RegisterRequest) (st : DBState) :
    Status × DBState :=
  if fail .redeem then (.internalServerError, st) else
  let rd := redeemUpdate req.invite_code st.invite_codes
  match rd.1 with
  | none => (.forbidden, st)
  | some _ =>
    if fail .insertUser then (.internalServerError, st) else
    if st.users.any (fun u => u.email == req.email) then (.internalServerError, st) else
    let user_id := st.next_id
    let users' := st.users ++ [⟨user_id, req.email, req.name, req.password_hash,
      req.password_salt, req.public_key, req.encrypted_private_key, req.private_key_nonce⟩]
    if fail .insertTeam then (.internalServerError, st) else
    let team_id := st.next_id + 1
    let teams' := st.teams ++ [⟨team_id, req.name ++ "\x27s Personal Team", true⟩]
    if fail .insertMember then (.internalServerError, st) else
    let members' := st.team_members ++ [⟨team_id, user_id, .admin⟩]
    if fail .insertKeyAccess then (.internalServerError, st) else
    let tka' := st.team_key_access ++ [⟨team_id, user_id, req.wrapped_personal_key,
      req.personal_key_nonce⟩]
    if fail .commit then (.internalServerError, st) else
    (.created, ⟨rd.2, users', teams', members', tka', st.next_id + 2⟩)

/-- the `signup` route as Rocket sees it: serde deserialization (including
all `deserialize_base64` fields) happens before the handler body; a
parse failure is rejected with 422 Unprocessable Entity and the handler
— and hence any storage operation — never runs. -/
def handle_signup (fail : FailureOracle) (raw : RawRegisterRequest) (st : DBState) :
    Status × DBState :=
  match parseRegisterRequest raw with
  | none => (.unprocessableEntity, st)
  | some req => signup fail req st

/-- Embedding of the `generate_invite` handler: insert a freshly generated
UUID v4 code (modelled as the parameter `new_code`, since the UUID is
drawn from the process RNG) as an unused invite row.  The insert fails
on a spontaneous storage error or on a violation of the unique
constraint on `code` (modelled from the spec: the migrations holding
the schema are not among the sources; the data model section declares
`code` unique). -/
def generate_invite (fail : Bool) (new_code : String) (st : DBState) :
    Except Status String × DBState :=
  if fail then (.error .internalServerError, st)
  else if st.invite_codes.any (fun r => r.code == new_code) then
    (.error .internalServerError, st)
  else
    (.ok new_code,
      { st with
        invite_codes := st.invite_codes ++ [⟨st.next_id, new_code, false⟩],
        next_id := st.next_id + 1 })

/-- Embedding of the `get_salt` handler: `SELECT password_salt FROM users
WHERE email = $1` with `fetch_optional`; on a hit, the stored salt is
returned Base64-encoded; on a miss, a deterministic fabricated salt
derived from the email is returned instead.  The handler only reads, so
the store is unchanged. -/
def get_salt (fail : Bool) (email : String) (st : DBState) : Except Status String :=
  if fail then .error .internalServerError
  else
    match st.users.find? (fun u => u.email == email) with
    | some u => .ok (base64Encode u.password_salt)
    | none => .ok (base64Encode (fabricatedSalt email))

/-! ## Operations and traces (for the temporal invariant) -/

/-- one externally-triggered operation against the store. -/
inductive Op where
  | signupOp (fail : FailureOracle) (raw : RawRegisterRequest)
  | generateInviteOp (fail : Bool) (new_code : String)
  | getSaltOp (fail : Bool) (email : String)

/-- the state after one operation (`get_salt` only reads). -/
def stepState (op : Op) (st : DBState) : DBState :=
  match op with
  | .signupOp f raw => (handle_signup f raw st).2
  | .generateInviteOp f c => (generate_invite f c st).2
  | .getSaltOp _ _ => st

/-- run a list of operations from a state. -/
def runOps (ops : List Op) (st : DBState) : DBState :=
  ops.foldl (fun s op => stepState op s) st

/-- does this operation successfully consume invite code `c` in state `st`
(a signup quoting `c` that returns 201 Created)? -/
def consumes (c : String) (op : Op) (st : DBState) : Bool :=
  match op with
  | .signupOp f raw => raw.invite_code == c && (handle_signup f raw st).1 == .created
  | _ => false

/-- number of successful registrations consuming code `c` along a trace. -/
def countConsumptions (c : String) : List Op → DBState → Nat
  | [], _ => 0
  | op :: ops, st =>
      (if consumes c op st then 1 else 0) + countConsumptions c ops (stepState op st)

/-! ## Helper lemmas about the embedding -/

/-- the store state that a successful `signup` commits: the redeemed invite
ledger plus the four inserted rows, with two fresh ids drawn. -/
def signupSuccessState (req : RegisterRequest) (st : DBState) : DBState :=
  ⟨(redeemUpdate req.invite_code st.invite_codes).2,
   st.users ++ [⟨st.next_id, req.email, req.name, req.password_hash, req.password_salt,
     req.public_key, req.encrypted_private_key, req.private_key_nonce⟩],
   st.teams ++ [⟨st.next_id + 1, req.name ++ "\x27s Personal Team", true⟩],
   st.team_members ++ [⟨st.next_id + 1, st.next_id, .admin⟩],
   st.team_key_access ++ [⟨st.next_id + 1, st.next_id, req.wrapped_personal_key,
     req.personal_key_nonce⟩],
   st.next_id + 2⟩

lemma signup_characterization (fail : FailureOracle) (req : RegisterRequest) (st : DBState) :
    (signup fail req st = (.created, signupSuccessState req st)
      ∧ st.invite_codes.filter (fun r => r.code == req.invite_code && !r.is_used) ≠ []
      ∧ st.users.any (fun u => u.email == req.email) = false)
    ∨ ((signup fail req st).1 ≠ .created ∧ (signup fail req st).2 = st) := by
  unfold signup
  split
  · exact Or.inr (by simp)
  · rcases hrd : (redeemUpdate req.invite_code st.invite_codes).1 with _ | x
    · simp only [hrd]
      exact Or.inr (by simp)
    · simp only [hrd]
      split
      · exact Or.inr (by simp)
      · split
        · exact Or.inr (by simp)
        · rename_i hdup
          split
          · exact Or.inr (by simp)
          · split
            · exact Or.inr (by simp)
            · split
              · exact Or.inr (by simp)
              · split
                · exact Or.inr (by simp)
                · left
                  refine ⟨rfl, ?_, by simpa using hdup⟩
                  intro hnil
                  unfold redeemUpdate at hrd
                  simp [hnil] at hrd

lemma flipMatching_of_used (c : String) (r : InviteCodeRow) (h : r.is_used = true) :
    flipMatching c r = r := by
  simp [flipMatching, h]

lemma flipMatching_code (c : String) (r : InviteCodeRow) :
    (flipMatching c r).code = r.code := by
  unfold flipMatching
  split <;> rfl

lemma flipMatching_id (c : String) (r : InviteCodeRow) :
    (flipMatching c r).id = r.id := by
  unfold flipMatching
  split <;> rfl

lemma flipMatching_used_of_code (c : String) (r : InviteCodeRow) (h : r.code = c) :
    (flipMatching c r).is_used = true := by
  unfold flipMatching
  rcases hu : r.is_used with _ | _
  · simp [h, hu]
  · split <;> simp [hu]

lemma flipMatching_of_code_ne (c : String) (r : InviteCodeRow) (h : r.code ≠ c) :
    flipMatching c r = r := by
  simp [flipMatching, h]

lemma redeemUpdate_fst_eq_none (c : String) (rows : List InviteCodeRow) :
    (redeemUpdate c rows).1 = none ↔ ∀ r ∈ rows, r.code = c → r.is_used = true := by
  unfold redeemUpdate
  rw [Option.map_eq_none', List.head?_eq_none_iff, List.filter_eq_nil_iff]
  constructor
  · intro h r hr hc
    have := h r hr
    simp only [Bool.and_eq_true, beq_iff_eq, Bool.not_eq_true', not_and] at this
    cases hu : r.is_used
    · exact absurd hu (this hc)
    · rfl
  · intro h r hr
    simp only [Bool.and_eq_true, beq_iff_eq, Bool.not_eq_true', not_and]
    intro hc
    simp [h r hr hc]

lemma redeemUpdate_snd (c : String) (rows : List InviteCodeRow) :
    (redeemUpdate c rows).2 = rows.map (flipMatching c) := rfl

lemma qround_length (s : List Nat) (a b c d : Nat) :
    (qround s a b c d).length = s.length := by
  simp [qround]

lemma chachaDoubleRound_length (s : List Nat) :
    (chachaDoubleRound s).length = s.length := by
  simp [chachaDoubleRound, qround_length]

lemma chachaRounds_length : ∀ (n : Nat) (s : List Nat),
    (chachaRounds n s).length = s.length
  | 0, _ => rfl
  | n + 1, s => by
      rw [chachaRounds, chachaRounds_length n, chachaDoubleRound_length]

lemma seedWords_length (seed : Nat) : (seedWords seed).length = 8 := rfl

lemma chacha12Block_length (key : List Nat) (h : key.length = 8) :
    (chacha12Block key).length = 16 := by
  simp [chacha12Block, chachaRounds_length, h]

lemma fabricatedSalt_length (email : String) : (fabricatedSalt email).length = 16 := by
  simp [fabricatedSalt, chacha12Block_length _ (seedWords_length _)]

lemma base64Encode_length : ∀ l : List Nat,
    (base64Encode l).length = 4 * ((l.length + 2) / 3)
  | [] => rfl
  | [_] => by rw [base64Encode, String.length_mk]; simp
  | [_, _] => by rw [base64Encode, String.length_mk]; simp
  | _ :: _ :: _ :: rest => by
      rw [base64Encode, String.length_append, base64Encode_length rest, String.length_mk]
      simp only [List.length_cons, List.length_nil]
      omega

/-! ## Concrete fixtures used by witnesses and counterexamples -/

/-- an unused invite row. -/
def inviteRow0 : InviteCodeRow := ⟨0, "code-0", false⟩

/-- a store holding just the unused invite. -/
def stOneInvite : DBState := ⟨[inviteRow0], [], [], [], [], 1⟩

/-- a parsed signup request quoting `code-0`. -/
def reqAlice : RegisterRequest :=
  ⟨"code-0", "alice@example.com", "Alice", [1], [2], [3], [4], [5], [6], [7]⟩

/-- a registered user whose client-supplied stored salt has 17 bytes. -/
def aliceRow : UserRow :=
  ⟨0, "alice@example.com", "Alice", [1], List.replicate 17 9, [3], [4], [5]⟩

/-- a store holding Alice and an unused invite. -/
def stAlice : DBState := ⟨[inviteRow0], [aliceRow], [], [], [], 1⟩

/-! ## The claims -/

/-- C1: if the signup bootstrap does not return 201 Created — in particular
when any step after invite redemption fails (the user insert, e.g. on a
duplicate email, the team insert, the `team_members` insert, the
`team_key_access` insert, or the commit) — the whole transaction rolls
back: the store equals the pre-call store, so no row of any table is
persisted, and every invite row that was unused before the call (in
particular the one the transaction had redeemed) is still present with
`is_used = false`. -/
theorem signup_failure_rolls_back (fail : FailureOracle) (req : RegisterRequest)
    (st : DBState) (h : (signup fail req st).1 ≠ Status.created) :
    (signup fail req st).2 = st ∧
      ∀ r ∈ st.invite_codes, r.is_used = false →
        r ∈ (signup fail req st).2.invite_codes ∧ r.is_used = false := by
  rcases signup_characterization fail req st with ⟨he, -, -⟩ | ⟨-, hst⟩
  · rw [he] at h
    exact absurd rfl h
  · refine ⟨hst, fun r hr hu => ⟨?_, hu⟩⟩
    rw [hst]
    exact hr

/-- C1 witness: a duplicate email makes the bootstrap fail with 500 after
the invite redemption already succeeded in-transaction; the committed
store is unchanged and the invite is still unused. -/
theorem signup_failure_rolls_back_witness :
    (signup noFailure reqAlice stAlice).1 ≠ Status.created ∧
      ((signup noFailure reqAlice stAlice).2 = stAlice ∧
        ∀ r ∈ stAlice.invite_codes, r.is_used = false →
          r ∈ (signup noFailure reqAlice stAlice).2.invite_codes ∧ r.is_used = false) :=
  ⟨by decide, signup_failure_rolls_back noFailure reqAlice stAlice (by decide)⟩

/-- C7: the fabricated salt for an email with no user row is a deterministic
function of the email alone: two `get_salt` calls with the same unknown
email — even against different stores — return the identical value,
namely the Base64 encoding of `fabricatedSalt email`, which seeds the
`StdRng` pseudorandom generator from the `DefaultHasher` hash of the
email. -/
theorem get_salt_deterministic (st st' : DBState) (email : String)
    (h : st.users.find? (fun u => u.email == email) = none)
    (h' : st'.users.find? (fun u => u.email == email) = none) :
    get_salt false email st = get_salt false email st'
    ∧ get_salt false email st = .ok (base64Encode (fabricatedSalt email)) := by
  constructor <;> simp [get_salt, h, h']

/-- C7 witness: the same unknown email queried against two different stores
yields the identical fabricated salt. -/
theorem get_salt_deterministic_witness :
    stOneInvite.users.find? (fun u => u.email == "bob@example.com") = none
    ∧ stAlice.users.find? (fun u => u.email == "bob@example.com") = none
    ∧ (get_salt false "bob@example.com" stOneInvite
        = get_salt false "bob@example.com" stAlice
      ∧ get_salt false "bob@example.com" stOneInvite
        = .ok (base64Encode (fabricatedSalt "bob@example.com"))) :=
  ⟨by decide, by decide,
    get_salt_deterministic stOneInvite stAlice "bob@example.com" (by decide) (by decide)⟩

/-- the salt value `get_salt` serves for an email: the stored one when the
user exists, the fabricated one otherwise. -/
def storedOrFabricatedSalt (st : DBState) (email : String) : List Nat :=
  match st.users.find? (fun u => u.email == email) with
  | some u => u.password_salt
  | none => fabricatedSalt email

/-- C8: `get_salt` always answers 200 OK with a Base64-encoded salt — the
stored one when a user with the email exists, the fabricated one
otherwise; the only failure it can produce is 500 on an internal
storage error, and it never produces a 404 not-found outcome. -/
theorem get_salt_never_404 (st : DBState) (email : String) :
    get_salt false email st = .ok (base64Encode (storedOrFabricatedSalt st email))
    ∧ get_salt true email st = .error .internalServerError
    ∧ ∀ fail : Bool, get_salt fail email st ≠ .error .notFound := by
  refine ⟨?_, rfl, ?_⟩
  · unfold get_salt storedOrFabricatedSalt
    cases st.users.find? (fun u => u.email == email) <;> simp
  · intro fail
    cases fail
    · unfold get_salt
      cases st.users.find? (fun u => u.email == email) <;> simp
    · simp [get_salt]

/-- C6 counterexample: with a real user whose stored salt has 17 bytes
(stored salts are client-supplied and kept verbatim), the fabricated
salt `get_salt` returns for an unknown email has 16 bytes — not a value
of identical byte length to the stored salt of the real user, refuting the
claim as stated. -/
theorem get_salt_same_shape_counterexample :
    stAlice.users.find? (fun u => u.email == "bob@example.com") = none
    ∧ stAlice.users = [aliceRow]
    ∧ get_salt false "bob@example.com" stAlice
        = .ok (base64Encode (fabricatedSalt "bob@example.com"))
    ∧ aliceRow.password_salt.length = 17
    ∧ (fabricatedSalt "bob@example.com").length ≠ aliceRow.password_salt.length := by
  refine ⟨by decide, rfl, rfl, by decide, by decide⟩

/-- C6 amended: for every email with no corresponding user row, `get_salt`
still returns 200 OK with a syntactically valid, non-empty Base64 salt
rather than an error or an empty response; the fabricated value has a
fixed 16-byte length, so it matches the byte length of every stored
salt that follows the conventional 16-byte shape (it cannot match users
whose client-supplied stored salt has a different length). -/
theorem get_salt_fabricated_fixed_shape (st : DBState) (email : String)
    (h : st.users.find? (fun u => u.email == email) = none) :
    get_salt false email st = .ok (base64Encode (fabricatedSalt email))
    ∧ (fabricatedSalt email).length = 16
    ∧ (base64Encode (fabricatedSalt email)).length = 24
    ∧ base64Encode (fabricatedSalt email) ≠ ""
    ∧ ∀ u ∈ st.users, u.password_salt.length = 16 →
        (fabricatedSalt email).length = u.password_salt.length := by
  have hl : (base64Encode (fabricatedSalt email)).length = 24 := by
    rw [base64Encode_length, fabricatedSalt_length]
  refine ⟨by simp [get_salt, h], fabricatedSalt_length email, hl, ?_, ?_⟩
  · intro he
    rw [he] at hl
    exact absurd hl (by decide)
  · intro u _ hu
    rw [fabricatedSalt_length, hu]

/-- C6 witness (amended claim): the unknown email `bob@example.com` against
the store holding Alice gets a 16-byte fabricated salt. -/
theorem get_salt_fabricated_fixed_shape_witness :
    stAlice.users.find? (fun u => u.email == "bob@example.com") = none
    ∧ (get_salt false "bob@example.com" stAlice
        = .ok (base64Encode (fabricatedSalt "bob@example.com"))
      ∧ (fabricatedSalt "bob@example.com").length = 16
      ∧ (base64Encode (fabricatedSalt "bob@example.com")).length = 24
      ∧ base64Encode (fabricatedSalt "bob@example.com") ≠ ""
      ∧ ∀ u ∈ stAlice.users, u.password_salt.length = 16 →
          (fabricatedSalt "bob@example.com").length = u.password_salt.length) :=
  ⟨by decide, get_salt_fabricated_fixed_shape stAlice "bob@example.com" (by decide)⟩

/-- C10: for an email with no user row, the response is the Base64 encoding
of exactly 16 fabricated bytes, independent of the byte lengths of any
stored real salts — which are client-supplied at signup and stored
verbatim, as the last conjunct shows: a successful signup appends
exactly the `password_salt` of the request to the stored salts. -/
theorem fabricated_salt_sixteen_bytes (st : DBState) (email : String)
    (h : st.users.find? (fun u => u.email == email) = none) :
    get_salt false email st = .ok (base64Encode (fabricatedSalt email))
    ∧ (fabricatedSalt email).length = 16
    ∧ ∀ (req : RegisterRequest) (st' : DBState),
        (signup noFailure req st').1 = .created →
        (signup noFailure req st').2.users.map (fun u => u.password_salt)
          = st'.users.map (fun u => u.password_salt) ++ [req.password_salt] := by
  refine ⟨by simp [get_salt, h], fabricatedSalt_length email, ?_⟩
  intro req st' hc
  rcases signup_characterization noFailure req st' with ⟨he, -, -⟩ | ⟨hn, -⟩
  · rw [he]
    simp [signupSuccessState]
  · exact absurd hc hn

/-- C10 witness: concrete 16-byte fabricated salt for an unknown email, and
a successful signup storing a 1-byte salt verbatim. -/
theorem fabricated_salt_sixteen_bytes_witness :
    stAlice.users.find? (fun u => u.email == "bob@example.com") = none
    ∧ (get_salt false "bob@example.com" stAlice
        = .ok (base64Encode (fabricatedSalt "bob@example.com"))
      ∧ (fabricatedSalt "bob@example.com").length = 16
      ∧ ∀ (req : RegisterRequest) (st' : DBState),
          (signup noFailure req st').1 = .created →
          (signup noFailure req st').2.users.map (fun u => u.password_salt)
            = st'.users.map (fun u => u.password_salt) ++ [req.password_salt]) :=
  ⟨by decide, fabricated_salt_sixteen_bytes stAlice "bob@example.com" (by decide)⟩

lemma parseRegisterRequest_eq_none (raw : RawRegisterRequest)
    (h : deserialize_base64 raw.password_hash = none
       ∨ deserialize_base64 raw.password_salt = none
       ∨ deserialize_base64 raw.public_key = none
       ∨ deserialize_base64 raw.encrypted_private_key = none
       ∨ deserialize_base64 raw.private_key_nonce = none
       ∨ deserialize_base64 raw.wrapped_personal_key = none
       ∨ deserialize_base64 raw.personal_key_nonce = none) :
    parseRegisterRequest raw = none := by
  unfold parseRegisterRequest
  cases h1 : deserialize_base64 raw.password_hash <;>
    cases h2 : deserialize_base64 raw.password_salt <;>
    cases h3 : deserialize_base64 raw.public_key <;>
    cases h4 : deserialize_base64 raw.encrypted_private_key <;>
    cases h5 : deserialize_base64 raw.private_key_nonce <;>
    cases h6 : deserialize_base64 raw.wrapped_personal_key <;>
    cases h7 : deserialize_base64 raw.personal_key_nonce <;>
    simp_all

/-- C9: if any binary field of the signup body is not valid Base64, serde
deserialization fails and Rocket rejects the request with 422
Unprocessable Entity — a 4xx-class status, not 500 — before the handler
body runs, so no storage operation executes and no row of any table is
written (the store is unchanged). -/
theorem signup_malformed_base64_rejected (fail : FailureOracle)
    (raw : RawRegisterRequest) (st : DBState)
    (h : deserialize_base64 raw.password_hash = none
       ∨ deserialize_base64 raw.password_salt = none
       ∨ deserialize_base64 raw.public_key = none
       ∨ deserialize_base64 raw.encrypted_private_key = none
       ∨ deserialize_base64 raw.private_key_nonce = none
       ∨ deserialize_base64 raw.wrapped_personal_key = none
       ∨ deserialize_base64 raw.personal_key_nonce = none) :
    (handle_signup fail raw st).1 = .unprocessableEntity
    ∧ 400 ≤ (handle_signup fail raw st).1.code
    ∧ (handle_signup fail raw st).1.code < 500
    ∧ (handle_signup fail raw st).2 = st := by
  have hp := parseRegisterRequest_eq_none raw h
  unfold handle_signup
  rw [hp]
  refine ⟨rfl, ?_, ?_, rfl⟩ <;> norm_num [Status.code]

/-- a signup body whose `password_hash` field is not valid Base64. -/
def rawBadReq : RawRegisterRequest :=
  ⟨"code-0", "alice@example.com", "Alice", "!!", "", "", "", "", "", ""⟩

/-- C9 witness: the malformed body is rejected with 422 against the
single-invite store, which is left unchanged. -/
theorem signup_malformed_base64_rejected_witness :
    deserialize_base64 rawBadReq.password_hash = none
    ∧ ((handle_signup noFailure rawBadReq stOneInvite).1 = .unprocessableEntity
      ∧ 400 ≤ (handle_signup noFailure rawBadReq stOneInvite).1.code
      ∧ (handle_signup noFailure rawBadReq stOneInvite).1.code < 500
      ∧ (handle_signup noFailure rawBadReq stOneInvite).2 = stOneInvite) :=
  ⟨by decide,
    signup_malformed_base64_rejected noFailure rawBadReq stOneInvite (Or.inl (by decide))⟩

lemma signup_fst_forbidden_iff (fail : FailureOracle) (req : RegisterRequest)
    (st : DBState) (hr : fail .redeem = false) :
    (signup fail req st).1 = .forbidden ↔
      (redeemUpdate req.invite_code st.invite_codes).1 = none := by
  unfold signup
  rw [hr]
  simp only [Bool.false_eq_true, if_false]
  rcases hrd : (redeemUpdate req.invite_code st.invite_codes).1 with _ | x
  · simp
  · constructor
    · intro h
      exfalso
      revert h
      repeat' split
      all_goals simp_all
    · intro h
      simp at h

/-- C3: with no spontaneous storage error, `signup` answers 403 Forbidden
exactly when, at redemption time, no `invite_codes` row with the quoted
code and `is_used = false` exists — the redemption being the single
conditional UPDATE that flips `is_used` from false to true and succeeds
only when it hits a row; and on that rejection the whole operation
aborts with no other side effects: the store is unchanged. -/
theorem signup_forbidden_iff_no_unused_code (req : RegisterRequest) (st : DBState) :
    ((signup noFailure req st).1 = .forbidden ↔
      ¬ ∃ r ∈ st.invite_codes, r.code = req.invite_code ∧ r.is_used = false)
    ∧ ((signup noFailure req st).1 = .forbidden → (signup noFailure req st).2 = st) := by
  constructor
  · rw [signup_fst_forbidden_iff noFailure req st rfl, redeemUpdate_fst_eq_none]
    constructor
    · rintro h ⟨r, hr, hc, hu⟩
      rw [h r hr hc] at hu
      exact absurd hu (by decide)
    · intro h r hr hc
      cases hu : r.is_used
      · exact absurd ⟨r, hr, hc, hu⟩ h
      · rfl
  · intro h
    rcases signup_characterization noFailure req st with ⟨he, -, -⟩ | ⟨-, hst⟩
    · rw [he] at h
      exact absurd h (by simp)
    · exact hst

/-- C3 witness: quoting a code that is absent from the single-invite store
is rejected with 403 and leaves the store unchanged. -/
theorem signup_forbidden_iff_no_unused_code_witness :
    ((signup noFailure ⟨"missing", "a@b", "A", [], [], [], [], [], [], []⟩ stOneInvite).1
        = .forbidden ↔
      ¬ ∃ r ∈ stOneInvite.invite_codes,
        r.code = (⟨"missing", "a@b", "A", [], [], [], [], [], [], []⟩ :
          RegisterRequest).invite_code ∧ r.is_used = false)
    ∧ ((signup noFailure ⟨"missing", "a@b", "A", [], [], [], [], [], [], []⟩ stOneInvite).1
        = .forbidden →
      (signup noFailure ⟨"missing", "a@b", "A", [], [], [], [], [], [], []⟩ stOneInvite).2
        = stOneInvite) :=
  signup_forbidden_iff_no_unused_code ⟨"missing", "a@b", "A", [], [], [], [], [], [], []⟩
    stOneInvite

/-- well-formed store: every row identifier already referenced is below the
fresh-id counter — true of every store the id generator itself built,
and what guarantees that freshly drawn ids collide with nothing. -/
def wfState (st : DBState) : Prop :=
  (∀ u ∈ st.users, u.id < st.next_id) ∧
  (∀ t ∈ st.teams, t.id < st.next_id) ∧
  (∀ m ∈ st.team_members, m.user_id < st.next_id ∧ m.team_id < st.next_id) ∧
  (∀ k ∈ st.team_key_access, k.user_id < st.next_id ∧ k.team_id < st.next_id)

/-- C2: after every successful signup (201 Created) against a well-formed
store, the store contains the new user row with the request's key
material verbatim, exactly one `team_members` row for the new user —
role `admin`, on the newly created team (an id no pre-existing team
has) which is personal and carries the generated personal-team display
name built from the request name — and exactly
one `team_key_access` row for the same (team, user) pair, holding the
client-provided `wrapped_personal_key` and `personal_key_nonce`
verbatim. -/
theorem signup_created_bootstrap (fail : FailureOracle) (req : RegisterRequest)
    (st : DBState) (hwf : wfState st) (h : (signup fail req st).1 = .created) :
    (signup fail req st).2.team_members.filter (fun m => m.user_id == st.next_id)
        = [⟨st.next_id + 1, st.next_id, .admin⟩]
    ∧ TeamRow.mk (st.next_id + 1) (req.name ++ "\x27s Personal Team") true
        ∈ (signup fail req st).2.teams
    ∧ (∀ t ∈ st.teams, t.id ≠ st.next_id + 1)
    ∧ (signup fail req st).2.team_key_access.filter
        (fun k => k.team_id == st.next_id + 1 && k.user_id == st.next_id)
        = [⟨st.next_id + 1, st.next_id, req.wrapped_personal_key, req.personal_key_nonce⟩]
    ∧ UserRow.mk st.next_id req.email req.name req.password_hash req.password_salt
        req.public_key req.encrypted_private_key req.private_key_nonce
        ∈ (signup fail req st).2.users := by
  obtain ⟨hu, ht, hm, hk⟩ := hwf
  rcases signup_characterization fail req st with ⟨he, -, -⟩ | ⟨hn, -⟩
  · rw [he]
    refine ⟨?_, ?_, ?_, ?_, ?_⟩
    · simp only [signupSuccessState]
      rw [List.filter_append]
      have h1 : st.team_members.filter (fun m => m.user_id == st.next_id) = [] := by
        rw [List.filter_eq_nil_iff]
        intro m hm'
        have := (hm m hm').1
        simp only [beq_iff_eq]
        omega
      rw [h1]
      simp
    · simp [signupSuccessState]
    · intro t ht'
      have := ht t ht'
      omega
    · simp only [signupSuccessState]
      rw [List.filter_append]
      have h1 : st.team_key_access.filter
          (fun k => k.team_id == st.next_id + 1 && k.user_id == st.next_id) = [] := by
        rw [List.filter_eq_nil_iff]
        intro k hk'
        have := (hk k hk').2
        simp only [Bool.and_eq_true, beq_iff_eq, not_and]
        intro hkeq
        omega
      rw [h1]
      simp
    · simp [signupSuccessState]
  · exact absurd h hn

/-- C2 witness: the concrete signup against the single-invite store creates
the user (id 1), the personal team (id 2), the single admin membership
and the single key-access row. -/
theorem signup_created_bootstrap_witness :
    wfState stOneInvite
    ∧ (signup noFailure reqAlice stOneInvite).1 = .created
    ∧ ((signup noFailure reqAlice stOneInvite).2.team_members.filter
          (fun m => m.user_id == stOneInvite.next_id)
        = [⟨stOneInvite.next_id + 1, stOneInvite.next_id, .admin⟩]
      ∧ TeamRow.mk (stOneInvite.next_id + 1)
          (reqAlice.name ++ "\x27s Personal Team") true
          ∈ (signup noFailure reqAlice stOneInvite).2.teams
      ∧ (∀ t ∈ stOneInvite.teams, t.id ≠ stOneInvite.next_id + 1)
      ∧ (signup noFailure reqAlice stOneInvite).2.team_key_access.filter
          (fun k => k.team_id == stOneInvite.next_id + 1
            && k.user_id == stOneInvite.next_id)
        = [⟨stOneInvite.next_id + 1, stOneInvite.next_id,
            reqAlice.wrapped_personal_key, reqAlice.personal_key_nonce⟩]
      ∧ UserRow.mk stOneInvite.next_id reqAlice.email reqAlice.name
          reqAlice.password_hash reqAlice.password_salt reqAlice.public_key
          reqAlice.encrypted_private_key reqAlice.private_key_nonce
          ∈ (signup noFailure reqAlice stOneInvite).2.users) :=
  ⟨⟨by simp [stOneInvite], by simp [stOneInvite], by simp [stOneInvite],
      by simp [stOneInvite]⟩, by decide,
    signup_created_bootstrap noFailure reqAlice stOneInvite
      ⟨by simp [stOneInvite], by simp [stOneInvite], by simp [stOneInvite],
        by simp [stOneInvite]⟩ (by decide)⟩

lemma signup_created_of (req : RegisterRequest) (st : DBState)
    (hrow : st.invite_codes.filter (fun r => r.code == req.invite_code && !r.is_used) ≠ [])
    (hdup : st.users.any (fun u => u.email == req.email) = false) :
    signup noFailure req st = (.created, signupSuccessState req st) := by
  obtain ⟨a, as, hl⟩ := List.exists_cons_of_ne_nil hrow
  have hrd : (redeemUpdate req.invite_code st.invite_codes).1 = some a.id := by
    unfold redeemUpdate
    rw [hl]
    rfl
  unfold signup
  simp only [noFailure, Bool.false_eq_true, if_false, hrd, hdup]
  rfl

lemma redeemUpdate_snd_used (c : String) (rows : List InviteCodeRow) :
    ∀ r' ∈ (redeemUpdate c rows).2, r'.code = c → r'.is_used = true := by
  rw [redeemUpdate_snd]
  intro r' hr' hc
  obtain ⟨r, hr, rfl⟩ := List.mem_map.mp hr'
  exact flipMatching_used_of_code c r (by rw [← flipMatching_code c r]; exact hc)

lemma redeemUpdate_countP_used (c : String) (rows : List InviteCodeRow) :
    (redeemUpdate c rows).2.countP (fun r => r.code == c && r.is_used)
      = rows.countP (fun r => r.code == c) := by
  rw [redeemUpdate_snd, List.countP_map]
  apply List.countP_congr
  intro r _
  rcases hc : r.code == c with _ | _
  · have hne : r.code ≠ c := by simpa using hc
    simp [Function.comp, flipMatching_of_code_ne c r hne, hc]
  · have hceq : r.code = c := by simpa using hc
    simp [Function.comp, flipMatching_code, flipMatching_used_of_code c r hceq, hceq]

/-- C4: two signup calls racing for the same invite code.  The conditional
UPDATE is atomic at the storage layer, so any concurrent execution of
the two transactions is equivalent to some serial order of them; this
theorem quantifies over both serial orders (`r1` runs first, `r2`
second, with the two requests arbitrary).  The first caller observes
201 Created, the second observes 403 Forbidden with no further state
change, and `is_used = true` holds for the code exactly once — no lost
update and no double redemption. -/
theorem concurrent_redemption_single_success (r1 r2 : RegisterRequest) (st : DBState)
    (hsame : r2.invite_code = r1.invite_code)
    (hrow : ∃ r ∈ st.invite_codes, r.code = r1.invite_code ∧ r.is_used = false)
    (hcount : st.invite_codes.countP (fun r => r.code == r1.invite_code) = 1)
    (hemail : st.users.any (fun u => u.email == r1.email) = false) :
    (signup noFailure r1 st).1 = .created
    ∧ (signup noFailure r2 (signup noFailure r1 st).2).1 = .forbidden
    ∧ (signup noFailure r2 (signup noFailure r1 st).2).2 = (signup noFailure r1 st).2
    ∧ (signup noFailure r1 st).2.invite_codes.countP
        (fun r => r.code == r1.invite_code && r.is_used) = 1 := by
  have hfil : st.invite_codes.filter
      (fun r => r.code == r1.invite_code && !r.is_used) ≠ [] := by
    obtain ⟨r, hr, hc, hu⟩ := hrow
    intro hnil
    rw [List.filter_eq_nil_iff] at hnil
    exact hnil r hr (by simp [hc, hu])
  have h1 := signup_created_of r1 st hfil hemail
  have hpost : (signup noFailure r1 st).2.invite_codes
      = (redeemUpdate r1.invite_code st.invite_codes).2 := by
    rw [h1]
    rfl
  have hfst : (signup noFailure r1 st).1 = .created := by rw [h1]
  have hforb : (signup noFailure r2 (signup noFailure r1 st).2).1 = .forbidden := by
    rw [signup_fst_forbidden_iff noFailure r2 _ rfl, redeemUpdate_fst_eq_none,
      hsame, hpost]
    exact redeemUpdate_snd_used r1.invite_code st.invite_codes
  refine ⟨hfst, hforb, ?_, ?_⟩
  · rcases signup_characterization noFailure r2 (signup noFailure r1 st).2 with
      ⟨he, -, -⟩ | ⟨-, hst⟩
    · rw [he] at hforb
      exact absurd hforb (by simp)
    · exact hst
  · rw [hpost, redeemUpdate_countP_used, hcount]

/-- a second racing signup request quoting the same invite code. -/
def reqBob : RegisterRequest :=
  ⟨"code-0", "bob@example.com", "Bob", [1], [2], [3], [4], [5], [6], [7]⟩

/-- C4 witness: Alice and Bob race for `code-0` against the single-invite
store; the first serialized caller wins, the second is rejected, and
the code ends up used exactly once. -/
theorem concurrent_redemption_single_success_witness :
    reqBob.invite_code = reqAlice.invite_code
    ∧ (∃ r ∈ stOneInvite.invite_codes, r.code = reqAlice.invite_code ∧ r.is_used = false)
    ∧ stOneInvite.invite_codes.countP (fun r => r.code == reqAlice.invite_code) = 1
    ∧ stOneInvite.users.any (fun u => u.email == reqAlice.email) = false
    ∧ ((signup noFailure reqAlice stOneInvite).1 = .created
      ∧ (signup noFailure reqBob (signup noFailure reqAlice stOneInvite).2).1 = .forbidden
      ∧ (signup noFailure reqBob (signup noFailure reqAlice stOneInvite).2).2
          = (signup noFailure reqAlice stOneInvite).2
      ∧ (signup noFailure reqAlice stOneInvite).2.invite_codes.countP
          (fun r => r.code == reqAlice.invite_code && r.is_used) = 1) :=
  ⟨rfl, ⟨inviteRow0, List.mem_singleton_self _, rfl, rfl⟩, by decide, by decide,
    concurrent_redemption_single_success reqAlice reqBob stOneInvite rfl
      ⟨inviteRow0, List.mem_singleton_self _, rfl, rfl⟩ (by decide) (by decide)⟩

lemma parse_invite_code (raw : RawRegisterRequest) (req : RegisterRequest)
    (hp : parseRegisterRequest raw = some req) : req.invite_code = raw.invite_code := by
  unfold parseRegisterRequest at hp
  cases h1 : deserialize_base64 raw.password_hash <;>
    cases h2 : deserialize_base64 raw.password_salt <;>
    cases h3 : deserialize_base64 raw.public_key <;>
    cases h4 : deserialize_base64 raw.encrypted_private_key <;>
    cases h5 : deserialize_base64 raw.private_key_nonce <;>
    cases h6 : deserialize_base64 raw.wrapped_personal_key <;>
    cases h7 : deserialize_base64 raw.personal_key_nonce <;>
    simp_all
  rw [← hp]

lemma handle_signup_invite_codes (f : FailureOracle) (raw : RawRegisterRequest)
    (st : DBState) :
    (handle_signup f raw st).2.invite_codes = st.invite_codes
    ∨ (handle_signup f raw st).2.invite_codes
        = st.invite_codes.map (flipMatching raw.invite_code) := by
  unfold handle_signup
  cases hp : parseRegisterRequest raw with
  | none => exact Or.inl rfl
  | some req =>
      have hic := parse_invite_code raw req hp
      rcases signup_characterization f req st with ⟨he, -, -⟩ | ⟨-, hst⟩
      · right
        show (signup f req st).2.invite_codes = _
        rw [he, ← hic]
        rfl
      · exact Or.inl (by show (signup f req st).2.invite_codes = _; rw [hst])

lemma generate_invite_invite_codes (f : Bool) (c : String) (st : DBState) :
    (generate_invite f c st).2.invite_codes = st.invite_codes
    ∨ ((generate_invite f c st).2.invite_codes
          = st.invite_codes ++ [⟨st.next_id, c, false⟩]
        ∧ st.invite_codes.any (fun r => r.code == c) = false) := by
  unfold generate_invite
  split
  · exact Or.inl rfl
  · split
    · exact Or.inl rfl
    · rename_i h2
      exact Or.inr ⟨rfl, by simpa using h2⟩

lemma stepState_invite_codes (op : Op) (st : DBState) :
    (stepState op st).invite_codes = st.invite_codes
    ∨ (∃ c', (stepState op st).invite_codes = st.invite_codes.map (flipMatching c'))
    ∨ (∃ c', (stepState op st).invite_codes = st.invite_codes ++ [⟨st.next_id, c', false⟩]
        ∧ st.invite_codes.any (fun r => r.code == c') = false) := by
  cases op with
  | getSaltOp f e => exact Or.inl rfl
  | generateInviteOp f c =>
      rcases generate_invite_invite_codes f c st with h | ⟨h, hn⟩
      · exact Or.inl h
      · exact Or.inr (Or.inr ⟨c, h, hn⟩)
  | signupOp f raw =>
      rcases handle_signup_invite_codes f raw st with h | h
      · exact Or.inl h
      · exact Or.inr (Or.inl ⟨raw.invite_code, h⟩)

lemma used_row_persists (op : Op) (st : DBState) (r : InviteCodeRow)
    (hr : r ∈ st.invite_codes) (hu : r.is_used = true) :
    r ∈ (stepState op st).invite_codes := by
  rcases stepState_invite_codes op st with h | ⟨c', h⟩ | ⟨c', h, -⟩
  · rw [h]
    exact hr
  · rw [h]
    have hm := List.mem_map_of_mem (flipMatching c') hr
    rwa [flipMatching_of_used c' r hu] at hm
  · rw [h]
    exact List.mem_append_left _ hr

/-- a consumed code: some row carries it, and every row carrying it is
already used. -/
def burned (c : String) (st : DBState) : Prop :=
  (∃ r ∈ st.invite_codes, r.code = c) ∧
  ∀ r ∈ st.invite_codes, r.code = c → r.is_used = true

lemma burned_stepState (c : String) (op : Op) (st : DBState) (h : burned c st) :
    burned c (stepState op st) := by
  obtain ⟨⟨r0, hr0, hc0⟩, hall⟩ := h
  rcases stepState_invite_codes op st with hs | ⟨c', hs⟩ | ⟨c', hs, hn⟩
  · unfold burned
    rw [hs]
    exact ⟨⟨r0, hr0, hc0⟩, hall⟩
  · constructor
    · exact ⟨flipMatching c' r0, by rw [hs]; exact List.mem_map_of_mem _ hr0,
        by rw [flipMatching_code]; exact hc0⟩
    · intro r' hr' hc'
      rw [hs] at hr'
      obtain ⟨r, hr, rfl⟩ := List.mem_map.mp hr'
      have hrc : r.code = c := by rwa [flipMatching_code] at hc'
      have hu := hall r hr hrc
      rw [flipMatching_of_used c' r hu]
      exact hu
  · constructor
    · exact ⟨r0, by rw [hs]; exact List.mem_append_left _ hr0, hc0⟩
    · intro r' hr' hc'
      rw [hs] at hr'
      rcases List.mem_append.mp hr' with h' | h'
      · exact hall r' h' hc'
      · exfalso
        have he : r' = ⟨st.next_id, c', false⟩ := List.mem_singleton.mp h'
        subst he
        have hcc : c' = c := hc'
        have := List.any_eq_false.mp hn r0 hr0
        rw [hc0, hcc] at this
        simp at this

lemma consumes_eq_false_of_burned (c : String) (op : Op) (st : DBState)
    (h : burned c st) : consumes c op st = false := by
  cases op with
  | getSaltOp f e => rfl
  | generateInviteOp f cc => rfl
  | signupOp f raw =>
      unfold consumes
      rcases hic : raw.invite_code == c with _ | _
      · simp [hic]
      · have hceq : raw.invite_code = c := by simpa using hic
        simp only [hic, Bool.true_and]
        unfold handle_signup
        cases hp : parseRegisterRequest raw with
        | none => rfl
        | some req =>
            have hric := parse_invite_code raw req hp
            rcases signup_characterization f req st with ⟨-, hfil, -⟩ | ⟨hn, -⟩
            · exfalso
              apply hfil
              rw [List.filter_eq_nil_iff]
              intro r hr
              simp only [Bool.and_eq_true, beq_iff_eq, Bool.not_eq_true', not_and]
              intro hrc
              simp [h.2 r hr (hrc.trans (hric.trans hceq))]
            · rcases hst' : (signup f req st).1 with _ | _ | _ | _ | _ | _
              case created => exact absurd hst' hn
              all_goals rfl

lemma consumes_burned (c : String) (op : Op) (st : DBState)
    (h : consumes c op st = true) : burned c (stepState op st) := by
  cases op with
  | getSaltOp f e => exact absurd h (by simp [consumes])
  | generateInviteOp f cc => exact absurd h (by simp [consumes])
  | signupOp f raw =>
      unfold consumes at h
      simp only [Bool.and_eq_true] at h
      obtain ⟨hic, hcr⟩ := h
      have hceq : raw.invite_code = c := by simpa using hic
      have hcreated : (handle_signup f raw st).1 = .created := by
        have hb := hcr
        revert hb
        rcases hq : (handle_signup f raw st).1 with _ | _ | _ | _ | _ | _ <;>
          intro hb <;> first | rfl | exact absurd hb (by decide)
      have hstep : stepState (Op.signupOp f raw) st = (handle_signup f raw st).2 := rfl
      rw [hstep]
      unfold handle_signup at hcreated ⊢
      cases hp : parseRegisterRequest raw with
      | none =>
          rw [hp] at hcreated
          simp at hcreated
      | some req =>
          rw [hp] at hcreated
          have hcreated2 : (signup f req st).1 = Status.created := hcreated
          have hric := parse_invite_code raw req hp
          rcases signup_characterization f req st with ⟨he, hfil, -⟩ | ⟨hn, -⟩
          · show burned c (signup f req st).2
            rw [he]
            constructor
            · obtain ⟨a, as, hl⟩ := List.exists_cons_of_ne_nil hfil
              have ha : a ∈ st.invite_codes.filter
                  (fun r => r.code == req.invite_code && !r.is_used) := by
                rw [hl]
                exact List.mem_cons_self a as
              obtain ⟨ham, hap⟩ := List.mem_filter.mp ha
              refine ⟨flipMatching req.invite_code a, ?_, ?_⟩
              · show _ ∈ (redeemUpdate req.invite_code st.invite_codes).2
                rw [redeemUpdate_snd]
                exact List.mem_map_of_mem _ ham
              · rw [flipMatching_code]
                simp only [Bool.and_eq_true, beq_iff_eq] at hap
                rw [hap.1, hric, hceq]
            · intro r' hr' hc'
              exact redeemUpdate_snd_used req.invite_code st.invite_codes r'
                hr' (by rw [hric, hceq]; exact hc')
          · exact absurd hcreated2 hn

lemma countConsumptions_eq_zero (c : String) : ∀ (ops : List Op) (st : DBState),
    burned c st → countConsumptions c ops st = 0
  | [], _, _ => rfl
  | op :: ops, st, h => by
      rw [countConsumptions, consumes_eq_false_of_burned c op st h,
        countConsumptions_eq_zero c ops _ (burned_stepState c op st h)]
      simp

lemma countConsumptions_le_one (c : String) : ∀ (ops : List Op) (st : DBState),
    countConsumptions c ops st ≤ 1
  | [], _ => by rw [countConsumptions]; omega
  | op :: ops, st => by
      rw [countConsumptions]
      rcases hcon : consumes c op st with _ | _
      · have := countConsumptions_le_one c ops (stepState op st)
        simp only [Bool.false_eq_true, if_false]
        omega
      · rw [countConsumptions_eq_zero c ops _ (consumes_burned c op st hcon)]
        simp

/-- C5: across every operation the service exposes (signup, invite
generation, salt lookup) and every store, a committed `invite_codes`
row with `is_used = true` persists unchanged after the operation —
`is_used` never reverts from true to false — and along any trace of
operations a given code is consumed by at most one successful
registration. -/
theorem invite_used_monotone_single_consumption (op : Op) (st : DBState)
    (c : String) (ops : List Op) :
    (∀ r ∈ st.invite_codes, r.is_used = true → r ∈ (stepState op st).invite_codes)
    ∧ countConsumptions c ops st ≤ 1 :=
  ⟨fun r hr hu => used_row_persists op st r hr hu,
    countConsumptions_le_one c ops st⟩

/-- an already-consumed invite row. -/
def inviteRow0Used : InviteCodeRow := ⟨0, "code-0", true⟩

/-- a store holding only the consumed invite. -/
def stUsed : DBState := ⟨[inviteRow0Used], [], [], [], [], 1⟩

/-- Alice's signup body on the wire (all binary fields valid Base64). -/
def rawReqAlice : RawRegisterRequest :=
  ⟨"code-0", "alice@example.com", "Alice", "AQ==", "Ag==", "Aw==", "BA==", "BQ==",
    "Bg==", "Bw=="⟩

/-- C5 witness: the used row survives a salt lookup, and a trace of two
signups racing for `code-0` consumes it at most once. -/
theorem invite_used_monotone_single_consumption_witness :
    inviteRow0Used ∈ stUsed.invite_codes ∧ inviteRow0Used.is_used = true
    ∧ inviteRow0Used ∈ (stepState (Op.getSaltOp false "e@x") stUsed).invite_codes
    ∧ countConsumptions "code-0"
        [Op.signupOp noFailure rawReqAlice, Op.signupOp noFailure rawReqAlice]
        stOneInvite ≤ 1 :=
  ⟨List.mem_singleton_self _, rfl,
    (invite_used_monotone_single_consumption (Op.getSaltOp false "e@x") stUsed
      "code-0" []).1 inviteRow0Used (List.mem_singleton_self _) rfl,
    (invite_used_monotone_single_consumption (Op.getSaltOp false "e@x") stOneInvite
      "code-0"
      [Op.signupOp noFailure rawReqAlice, Op.signupOp noFailure rawReqAlice]).2⟩
